import Mathlib

/-!
Shallow embedding of `format_string.cpp`: a small authentication example
reading a username and a password from stdin, checking them against a
fixed in-memory user table, and invoking an admin panel on success.

Bytes are modelled as `Nat` (character codes).  A C string (the logical,
null-terminated content of a buffer) is a `List Nat` free of zero bytes;
a fixed-size buffer is a `List Nat` of length 32 that may contain zero
bytes, and `cstr` extracts its logical content.  The input stream is the
list of bytes still unread from stdin.
-/

namespace FmtAuth

/-- Bytes of a Lean string literal, as character codes. -/
def strBytes (s : String) : List Nat := s.data.map Char.toNat

def MAX_USERNAME_LENGTH : Nat := 32

def MAX_PASSWORD_LENGTH : Nat := 32

/-- Truth of `strncmp(a, b, n) == 0` on logical (null-free) strings: the first `n`
bytes agree, where a string shorter than `n` must be matched exactly. -/
def strncmp_eq (a b : List Nat) (n : Nat) : Bool := a.take n == b.take n

/-- The source's `struct User`: a username and a hashed password. -/
structure User where
  username : List Nat
  hashed_password : List Nat
deriving DecidableEq

/-- The static `database` array of the source. -/
def database : List User :=
  [ { username := strBytes "admin", hashed_password := strBytes "aaaaaaaa" },
    { username := strBytes "lukas", hashed_password := strBytes "hashed_lukasPass" },
    { username := strBytes "greg",  hashed_password := strBytes "hashed_gregPass" } ]

/-- The loop condition of `verify_user_password`:
`strncmp(database[i].username, username, strlen(database[i].username)) == 0`. -/
def userMatch (candidate : List Nat) (u : User) : Bool :=
  strncmp_eq u.username candidate u.username.length

/-- The database scan of `verify_user_password`: first entry whose username
matches the candidate under the source's `strncmp` bound. -/
def findUser (username : List Nat) : Option User := database.find? (userMatch username)

/-- The source's stub `bcrypt_checkpw`: always returns 0. -/
def bcrypt_checkpw (_password _hash : List Nat) : Int := 0

/-- Result of `verify_user_password` together with the number of database
scans performed (0 when the length validation rejects the credentials
before the lookup, 1 once the scan loop runs). -/
structure VerifyResult where
  ok : Bool
  lookups : Nat
deriving DecidableEq

/-- The source's `verify_user_password`, parameterised by the password
checking capability (the source plugs in the stub `bcrypt_checkpw`).
Inputs are logical strings, so `strlen` is `List.length`.  The `NULL`
argument check of the source has no counterpart: a `List Nat` is never
`NULL`. -/
def verify_user_password_trace_with (cp : List Nat → List Nat → Int)
    (username password : List Nat) : VerifyResult :=
  let username_length := username.length
  let password_length := password.length
  if username_length = 0 ∨ MAX_USERNAME_LENGTH ≤ username_length ∨
      password_length = 0 ∨ MAX_PASSWORD_LENGTH ≤ password_length then
    { ok := false, lookups := 0 }
  else
    match findUser username with
    | some u => { ok := cp password u.hashed_password == 0, lookups := 1 }
    | none => { ok := false, lookups := 1 }

def verify_user_password_with (cp : List Nat → List Nat → Int)
    (username password : List Nat) : Bool :=
  (verify_user_password_trace_with cp username password).ok

def verify_user_password_trace (username password : List Nat) : VerifyResult :=
  verify_user_password_trace_with bcrypt_checkpw username password

def verify_user_password (username password : List Nat) : Bool :=
  verify_user_password_with bcrypt_checkpw username password

/-- Logical content of a buffer: the bytes before the first zero byte
(`strlen` semantics). -/
def cstr (buf : List Nat) : List Nat := buf.takeWhile (fun c => c != 0)

/-- Effect on a buffer of writing a read line: the bytes, then a
terminating zero, the rest of the buffer untouched (`fgets` writes). -/
def write_cstr (buf content : List Nat) : List Nat :=
  content ++ 0 :: buf.drop (content.length + 1)

/-- The source's `strcspn(buf, "\n")`: length of the initial segment of the logical
string free of newline bytes. -/
def strcspn_nl (buf : List Nat) : Nat :=
  ((cstr buf).takeWhile (fun c => c != 10)).length

/-- The statement `buf[strcspn(buf, "\n")] = 0`: truncate the buffer at its first
newline. -/
def strip_nl (buf : List Nat) : List Nat := buf.set (strcspn_nl buf) 0

/-- Core of `fgets`: read at most `n` bytes from the stream, stopping
after a newline; returns the bytes read and the rest of the stream. -/
def fgetsAux : Nat → List Nat → List Nat × List Nat
  | 0, s => ([], s)
  | _ + 1, [] => ([], [])
  | n + 1, c :: rest =>
    if c = 10 then ([10], rest)
    else
      let r := fgetsAux n rest
      (c :: r.1, r.2)

/-- The call `fgets(buf, n, stream)` reads at most `n - 1` bytes. -/
def fgets (n : Nat) (stream : List Nat) : List Nat × List Nat := fgetsAux (n - 1) stream

/-- The state of `authenticate_admin` when it returns: the two stack
buffers, the raw bytes each `fgets` read, the logical strings handed to
`verify_user_password`, its verdict and its lookup count. -/
structure AuthRun where
  nameBuf : List Nat
  passBuf : List Nat
  nameRead : List Nat
  passRead : List Nat
  uname : List Nat
  pword : List Nat
  ok : Bool
  lookups : Nat
deriving DecidableEq

/-- The source's `authenticate_admin`, parameterised by the password
checking capability: zeroize both buffers, `fgets` the username (the
newline-stripping line is commented out in the source), `fgets` the
password and strip its newline, then call `verify_user_password`.  No
wiping happens on return. -/
def authenticate_admin_with (cp : List Nat → List Nat → Int) (stdin : List Nat) : AuthRun :=
  let entered_name := List.replicate MAX_USERNAME_LENGTH 0
  let entered_password := List.replicate MAX_PASSWORD_LENGTH 0
  let nameStep := fgets MAX_USERNAME_LENGTH stdin
  let nameBuf := write_cstr entered_name nameStep.1
  let passStep := fgets MAX_PASSWORD_LENGTH nameStep.2
  let passBuf := strip_nl (write_cstr entered_password passStep.1)
  let uname := cstr nameBuf
  let pword := cstr passBuf
  let v := verify_user_password_trace_with cp uname pword
  { nameBuf := nameBuf, passBuf := passBuf, nameRead := nameStep.1, passRead := passStep.1,
    uname := uname, pword := pword, ok := v.ok, lookups := v.lookups }

def authenticate_admin (stdin : List Nat) : AuthRun :=
  authenticate_admin_with bcrypt_checkpw stdin

/-- The source's `main`: call `admin_panel()` exactly when `authenticate_admin`
returns true; the count of its invocations in one run. -/
def admin_panel_invocations (stdin : List Nat) : Nat :=
  if (authenticate_admin stdin).ok then 1 else 0

/-- What `printf(fmt)` with no variadic arguments emits: literal bytes
pass through, `%%` emits one `%`, and any other conversion directive
reads a missing argument — undefined behaviour, modelled as `none`. -/
def printfRender : List Nat → Option (List Nat)
  | [] => some []
  | c :: rest =>
    if c = 37 then
      match rest with
      | [] => none
      | d :: rest2 => if d = 37 then (printfRender rest2).map (fun t => 37 :: t) else none
    else (printfRender rest).map (fun t => c :: t)

/-- Constant text printed before `printf(entered_name)` on success. -/
def success_pre : List Nat :=
  strBytes "\n------------------------------------------------------------\nPassword matched, Authenticated succesfully for the user:"

/-- Constant text printed after `printf(entered_name)` on success. -/
def success_post : List Nat :=
  strBytes "\n------------------------------------------------------------\n"

/-- The failure line: `printf("Password mismatch for the user: %s\n", entered_name)` —
here the username is a data argument of a constant format. -/
def mismatch_msg (u : List Nat) : List Nat :=
  strBytes "Password mismatch for the user: " ++ u ++ [10]

/-- The bytes `authenticate_admin` prints after the verdict: on success
the constant banner around `printf(entered_name)` — the username is the
format string, so rendering may be undefined (`none`); on failure the
constant-shape mismatch line. -/
def gate_output_with (cp : List Nat → List Nat → Int) (u p : List Nat) : Option (List Nat) :=
  if verify_user_password_with cp u p then
    (printfRender u).map (fun s => success_pre ++ s ++ success_post)
  else
    some (mismatch_msg u)

/-- Output of a full `authenticate_admin` run on a given stdin. -/
def auth_output (stdin : List Nat) : Option (List Nat) :=
  gate_output_with bcrypt_checkpw (authenticate_admin stdin).uname (authenticate_admin stdin).pword

/-- Bytes of a line up to its first newline (what the password buffer
holds after the source's newline strip). -/
def nl_trim (c : List Nat) : List Nat := c.takeWhile (fun b => b != 10)

/-- A non-constant password checking capability, used to exhibit runs in
which a stored user's password check fails (the source's stub never
fails, but the capability is pluggable). -/
def eq_checkpw (password hash : List Nat) : Int := if password = hash then 0 else 1

/-! Helper lemmas about the embedded primitives. -/

theorem fgetsAux_length (n : Nat) (s : List Nat) : (fgetsAux n s).1.length ≤ n := by
  induction n generalizing s with
  | zero => simp [fgetsAux]
  | succ n ih =>
    cases s with
    | nil => simp [fgetsAux]
    | cons c rest =>
      simp only [fgetsAux]
      split
      · simp
      · simpa using Nat.succ_le_succ (ih rest)

theorem fgetsAux_read_mem (n : Nat) (s : List Nat) {c : Nat}
    (h : c ∈ (fgetsAux n s).1) : c ∈ s := by
  induction n generalizing s with
  | zero => simp [fgetsAux] at h
  | succ n ih =>
    cases s with
    | nil => simp [fgetsAux] at h
    | cons a rest =>
      simp only [fgetsAux] at h
      split at h
      · simp at h
        simp [h]
        omega
      · simp at h
        rcases h with h | h
        · simp [h]
        · exact List.mem_cons_of_mem _ (ih rest h)

theorem fgetsAux_rest_mem (n : Nat) (s : List Nat) {c : Nat}
    (h : c ∈ (fgetsAux n s).2) : c ∈ s := by
  induction n generalizing s with
  | zero =>
    simpa [fgetsAux] using h
  | succ n ih =>
    cases s with
    | nil => simp [fgetsAux] at h
    | cons a rest =>
      simp only [fgetsAux] at h
      split at h
      · simp at h
        exact List.mem_cons_of_mem _ h
      · simp at h
        exact List.mem_cons_of_mem _ (ih rest h)

theorem fgetsAux_nl_structure (n : Nat) (s : List Nat) :
    (∀ c ∈ (fgetsAux n s).1, c ≠ 10) ∨
      (∃ q, (fgetsAux n s).1 = q ++ [10] ∧ ∀ c ∈ q, c ≠ 10) := by
  induction n generalizing s with
  | zero => left; simp [fgetsAux]
  | succ n ih =>
    cases s with
    | nil => left; simp [fgetsAux]
    | cons a rest =>
      simp only [fgetsAux]
      split
      · right
        exact ⟨[], by simp, by simp⟩
      · rename_i ha
        rcases ih rest with h | ⟨q, hq, hqn⟩
        · left
          intro c hc
          simp at hc
          rcases hc with hc | hc
          · simpa [hc] using ha
          · exact h c hc
        · right
          refine ⟨a :: q, by simp [hq], ?_⟩
          intro c hc
          simp at hc
          rcases hc with hc | hc
          · simpa [hc] using ha
          · exact hqn c hc

theorem fgetsAux_no_nl (n : Nat) (s : List Nat)
    (hnl : ∀ c ∈ s.take n, c ≠ 10) (hlen : n ≤ s.length) :
    fgetsAux n s = (s.take n, s.drop n) := by
  induction n generalizing s with
  | zero => simp [fgetsAux]
  | succ n ih =>
    cases s with
    | nil => simp at hlen
    | cons a rest =>
      have ha : a ≠ 10 := hnl a (by simp)
      simp only [fgetsAux, if_neg ha]
      have := ih rest (fun x hx => hnl x (by simp [hx])) (Nat.le_of_succ_le_succ hlen)
      simp [this]

theorem takeWhile_append_stop (p : Nat → Bool) (c : List Nat) (b : Nat) (t : List Nat)
    (hc : ∀ x ∈ c, p x = true) (hb : p b = false) :
    (c ++ b :: t).takeWhile p = c := by
  induction c with
  | nil => simp [List.takeWhile_cons, hb]
  | cons a c ih =>
    have ha : p a = true := hc a (by simp)
    simp [List.takeWhile_cons, ha, ih (fun x hx => hc x (by simp [hx]))]

theorem takeWhile_all (p : Nat → Bool) (c : List Nat) (hc : ∀ x ∈ c, p x = true) :
    c.takeWhile p = c := by
  induction c with
  | nil => rfl
  | cons a c ih =>
    have ha : p a = true := hc a (by simp)
    simp [List.takeWhile_cons, ha, ih (fun x hx => hc x (by simp [hx]))]

theorem mem_takeWhile_pred (p : Nat → Bool) (l : List Nat) {x : Nat}
    (h : x ∈ l.takeWhile p) : p x = true := by
  induction l with
  | nil => simp at h
  | cons a l ih =>
    rw [List.takeWhile_cons] at h
    by_cases ha : p a
    · rw [if_pos ha] at h
      rcases List.mem_cons.mp h with h | h
      · exact h ▸ ha
      · exact ih h
    · rw [if_neg ha] at h
      simp at h

theorem mem_takeWhile_mem (p : Nat → Bool) (l : List Nat) {x : Nat}
    (h : x ∈ l.takeWhile p) : x ∈ l := by
  induction l with
  | nil => simp at h
  | cons a l ih =>
    rw [List.takeWhile_cons] at h
    by_cases ha : p a
    · rw [if_pos ha] at h
      rcases List.mem_cons.mp h with h | h
      · simp [h]
      · exact List.mem_cons_of_mem _ (ih h)
    · rw [if_neg ha] at h
      simp at h

theorem takeWhile_length_le (p : Nat → Bool) (l : List Nat) :
    (l.takeWhile p).length ≤ l.length := by
  induction l with
  | nil => simp
  | cons a l ih =>
    rw [List.takeWhile_cons]
    by_cases ha : p a
    · rw [if_pos ha]
      simpa using ih
    · rw [if_neg ha]
      simp

theorem set_append_cons (c : List Nat) (b v : Nat) (t : List Nat) :
    (c ++ b :: t).set c.length v = c ++ v :: t := by
  induction c with
  | nil => rfl
  | cons a c ih => simp [ih]

theorem cstr_append_zero (c t : List Nat) (h0 : 0 ∉ c) : cstr (c ++ 0 :: t) = c := by
  refine takeWhile_append_stop _ c 0 t ?_ (by simp)
  intro x hx
  simp only [bne_iff_ne, ne_eq]
  exact fun he => h0 (he ▸ hx)

theorem write_cstr_replicate (c : List Nat) (h : c.length ≤ 31) :
    write_cstr (List.replicate 32 0) c = c ++ List.replicate (32 - c.length) 0 := by
  simp only [write_cstr, List.drop_replicate]
  have h1 : 32 - (c.length + 1) = 31 - c.length := by omega
  have h2 : 32 - c.length = (31 - c.length) + 1 := by omega
  rw [h1, h2, List.replicate_succ]

theorem strip_write_closed (c : List Nat) (h0 : 0 ∉ c) (hl : c.length ≤ 31)
    (hnl : (∀ x ∈ c, x ≠ 10) ∨ ∃ q, c = q ++ [10] ∧ ∀ x ∈ q, x ≠ 10) :
    strip_nl (write_cstr (List.replicate 32 0) c) =
      nl_trim c ++ List.replicate (32 - (nl_trim c).length) 0 := by
  have hwr : write_cstr (List.replicate 32 0) c = c ++ 0 :: List.replicate (31 - c.length) 0 := by
    simp only [write_cstr, List.drop_replicate]
    have h1 : 32 - (c.length + 1) = 31 - c.length := by omega
    rw [h1]
  have hcstr : cstr (write_cstr (List.replicate 32 0) c) = c := by
    rw [hwr]
    exact cstr_append_zero c _ h0
  rcases hnl with h | ⟨q, hq, hqn⟩
  · have htrim : nl_trim c = c :=
      takeWhile_all (fun b => b != 10) c (fun x hx => by simpa using h x hx)
    have hcspn : strcspn_nl (write_cstr (List.replicate 32 0) c) = c.length := by
      simp only [strcspn_nl, hcstr]
      rw [takeWhile_all (fun b => b != 10) c (fun x hx => by simpa using h x hx)]
    simp only [strip_nl]
    rw [hcspn, hwr, set_append_cons, htrim]
    have h2 : 32 - c.length = (31 - c.length) + 1 := by omega
    rw [h2, List.replicate_succ]
  · have htrim : nl_trim c = q := by
      rw [hq]
      exact takeWhile_append_stop (fun b => b != 10) q 10 []
        (fun x hx => by simpa using hqn x hx) (by simp)
    have hclen : c.length = q.length + 1 := by simp [hq]
    have hqlen : q.length ≤ 30 := by omega
    have hcspn : strcspn_nl (write_cstr (List.replicate 32 0) c) = q.length := by
      simp only [strcspn_nl, hcstr]
      rw [hq]
      rw [takeWhile_append_stop (fun b => b != 10) q 10 []
        (fun x hx => by simpa using hqn x hx) (by simp)]
    simp only [strip_nl]
    rw [hcspn, hwr, htrim, hq]
    have hassoc : (q ++ [10]) ++ 0 :: List.replicate (31 - (q ++ [10]).length) 0 =
        q ++ 10 :: 0 :: List.replicate (31 - (q ++ [10]).length) 0 := by
      simp
    rw [hassoc, set_append_cons]
    have hlen2 : (q ++ [10]).length = q.length + 1 := by simp
    rw [hlen2]
    have h31 : 31 - (q.length + 1) = 30 - q.length := by omega
    have h2 : 32 - q.length = (30 - q.length) + 2 := by omega
    rw [h31, h2, List.replicate_succ, List.replicate_succ]

theorem cstr_len_le_of_zero (l : List Nat) (i : Nat) (h : l[i]? = some 0) :
    (cstr l).length ≤ i := by
  induction l generalizing i with
  | nil => simp at h
  | cons a l ih =>
    cases i with
    | zero =>
      simp at h
      simp [cstr, List.takeWhile_cons, h]
    | succ i =>
      simp at h
      by_cases ha : a = 0
      · simp [cstr, List.takeWhile_cons, ha]
      · have := ih i h
        simp only [cstr, List.takeWhile_cons] at *
        rw [if_pos (by simpa using ha)]
        simpa using Nat.succ_le_succ this

theorem getElem?_set_zero (l : List Nat) (k i : Nat) (h : l[i]? = some 0) :
    (l.set k 0)[i]? = some 0 := by
  induction l generalizing k i with
  | nil => simp at h
  | cons a l ih =>
    cases k with
    | zero =>
      cases i with
      | zero => simp
      | succ i => simpa using h
    | succ k =>
      cases i with
      | zero => simpa using h
      | succ i =>
        simp only [List.set]
        simpa using ih k i (by simpa using h)

theorem write_getElem_zero (c t : List Nat) : (c ++ 0 :: t)[c.length]? = some 0 := by
  induction c with
  | nil => simp
  | cons a c ih => simpa using ih

theorem strip_write_cstr_len (c : List Nat) (hl : c.length ≤ 31) :
    (cstr (strip_nl (write_cstr (List.replicate 32 0) c))).length ≤ 31 := by
  have h1 : (write_cstr (List.replicate 32 0) c)[c.length]? = some 0 := by
    simp only [write_cstr]
    exact write_getElem_zero c _
  have h2 := getElem?_set_zero _ (strcspn_nl (write_cstr (List.replicate 32 0) c)) c.length h1
  exact le_trans (cstr_len_le_of_zero _ _ h2) hl

theorem printfRender_no_pct (l : List Nat) (h : 37 ∉ l) : printfRender l = some l := by
  induction l with
  | nil => rfl
  | cons c rest ih =>
    have hc : c ≠ 37 := fun he => h (he ▸ List.mem_cons_self c rest)
    have hrest : 37 ∉ rest := fun hx => h (List.mem_cons_of_mem _ hx)
    rw [printfRender.eq_def]
    simp only [if_neg hc, ih hrest]
    rfl

/-! Helper lemmas about `verify_user_password` and `authenticate_admin`. -/

theorem trace_invalid (cp : List Nat → List Nat → Int) (u p : List Nat)
    (h : u.length = 0 ∨ 32 ≤ u.length ∨ p.length = 0 ∨ 32 ≤ p.length) :
    verify_user_password_trace_with cp u p = { ok := false, lookups := 0 } := by
  simp only [verify_user_password_trace_with, MAX_USERNAME_LENGTH, MAX_PASSWORD_LENGTH]
  rw [if_pos h]

theorem trace_valid_lookups (cp : List Nat → List Nat → Int) (u p : List Nat)
    (h : ¬(u.length = 0 ∨ 32 ≤ u.length ∨ p.length = 0 ∨ 32 ≤ p.length)) :
    (verify_user_password_trace_with cp u p).lookups = 1 := by
  simp only [verify_user_password_trace_with, MAX_USERNAME_LENGTH, MAX_PASSWORD_LENGTH]
  rw [if_neg h]
  cases hf : findUser u <;> simp

theorem verify_with_find_none (cp : List Nat → List Nat → Int) (u p : List Nat)
    (h : findUser u = none) : verify_user_password_with cp u p = false := by
  simp only [verify_user_password_with, verify_user_password_trace_with]
  split
  · rfl
  · rw [h]

theorem verify_with_find_some (cp : List Nat → List Nat → Int) (u p : List Nat) (e : User)
    (hg : ¬(u.length = 0 ∨ 32 ≤ u.length ∨ p.length = 0 ∨ 32 ≤ p.length))
    (h : findUser u = some e) :
    verify_user_password_with cp u p = (cp p e.hashed_password == 0) := by
  simp only [verify_user_password_with, verify_user_password_trace_with,
    MAX_USERNAME_LENGTH, MAX_PASSWORD_LENGTH]
  rw [if_neg hg, h]

theorem auth_nameRead_def (cp : List Nat → List Nat → Int) (stdin : List Nat) :
    (authenticate_admin_with cp stdin).nameRead = (fgets 32 stdin).1 := rfl

theorem auth_nameBuf_def (cp : List Nat → List Nat → Int) (stdin : List Nat) :
    (authenticate_admin_with cp stdin).nameBuf =
      write_cstr (List.replicate 32 0) (fgets 32 stdin).1 := rfl

theorem auth_uname_def (cp : List Nat → List Nat → Int) (stdin : List Nat) :
    (authenticate_admin_with cp stdin).uname =
      cstr (write_cstr (List.replicate 32 0) (fgets 32 stdin).1) := rfl

theorem auth_passRead_def (cp : List Nat → List Nat → Int) (stdin : List Nat) :
    (authenticate_admin_with cp stdin).passRead = (fgets 32 (fgets 32 stdin).2).1 := rfl

theorem auth_passBuf_def (cp : List Nat → List Nat → Int) (stdin : List Nat) :
    (authenticate_admin_with cp stdin).passBuf =
      strip_nl (write_cstr (List.replicate 32 0) (fgets 32 (fgets 32 stdin).2).1) := rfl

theorem auth_pword_def (cp : List Nat → List Nat → Int) (stdin : List Nat) :
    (authenticate_admin_with cp stdin).pword =
      cstr (strip_nl (write_cstr (List.replicate 32 0) (fgets 32 (fgets 32 stdin).2).1)) := rfl

theorem auth_ok_def (cp : List Nat → List Nat → Int) (stdin : List Nat) :
    (authenticate_admin_with cp stdin).ok =
      verify_user_password_with cp (authenticate_admin_with cp stdin).uname
        (authenticate_admin_with cp stdin).pword := rfl

theorem auth_lookups_def (cp : List Nat → List Nat → Int) (stdin : List Nat) :
    (authenticate_admin_with cp stdin).lookups =
      (verify_user_password_trace_with cp (authenticate_admin_with cp stdin).uname
        (authenticate_admin_with cp stdin).pword).lookups := rfl

theorem uname_closed (c : List Nat) (h0 : 0 ∉ c) :
    cstr (write_cstr (List.replicate 32 0) c) = c := by
  simp only [write_cstr]
  exact cstr_append_zero c _ h0

theorem pword_closed (c : List Nat) (h0 : 0 ∉ c) (hl : c.length ≤ 31)
    (hnl : (∀ x ∈ c, x ≠ 10) ∨ ∃ q, c = q ++ [10] ∧ ∀ x ∈ q, x ≠ 10) :
    cstr (strip_nl (write_cstr (List.replicate 32 0) c)) = nl_trim c := by
  rw [strip_write_closed c h0 hl hnl]
  have hk : (nl_trim c).length ≤ 31 :=
    le_trans (takeWhile_length_le _ c) hl
  have h2 : 32 - (nl_trim c).length = (31 - (nl_trim c).length) + 1 := by omega
  rw [h2, List.replicate_succ]
  refine cstr_append_zero _ _ ?_
  intro hx
  exact h0 (mem_takeWhile_mem _ c hx)

theorem fgets32_length (s : List Nat) : (fgets 32 s).1.length ≤ 31 := fgetsAux_length 31 s

theorem fgets32_read_mem (s : List Nat) {c : Nat} (h : c ∈ (fgets 32 s).1) : c ∈ s :=
  fgetsAux_read_mem 31 s h

theorem fgets32_rest_mem (s : List Nat) {c : Nat} (h : c ∈ (fgets 32 s).2) : c ∈ s :=
  fgetsAux_rest_mem 31 s h

theorem fgets32_nl_structure (s : List Nat) :
    (∀ c ∈ (fgets 32 s).1, c ≠ 10) ∨
      (∃ q, (fgets 32 s).1 = q ++ [10] ∧ ∀ c ∈ q, c ≠ 10) :=
  fgetsAux_nl_structure 31 s

theorem auth_ok_split (stdin : List Nat) :
    (authenticate_admin stdin).ok =
      verify_user_password_with bcrypt_checkpw (authenticate_admin stdin).uname
        (authenticate_admin stdin).pword := rfl

/-- After any run, the username buffer holds exactly the bytes read
(no newline stripping), the password buffer the bytes read up to the
first newline, each padded with the zero bytes of the initial
zeroization; nothing is wiped at the end. -/
theorem run_retains (cp : List Nat → List Nat → Int) (stdin : List Nat) (h0 : 0 ∉ stdin) :
    (authenticate_admin_with cp stdin).uname = (authenticate_admin_with cp stdin).nameRead ∧
    (authenticate_admin_with cp stdin).nameBuf =
      (authenticate_admin_with cp stdin).uname ++
        List.replicate (32 - (authenticate_admin_with cp stdin).uname.length) 0 ∧
    (authenticate_admin_with cp stdin).pword =
      nl_trim (authenticate_admin_with cp stdin).passRead ∧
    (authenticate_admin_with cp stdin).passBuf =
      (authenticate_admin_with cp stdin).pword ++
        List.replicate (32 - (authenticate_admin_with cp stdin).pword.length) 0 := by
  have hnr0 : 0 ∉ (fgets 32 stdin).1 := fun hx => h0 (fgets32_read_mem stdin hx)
  have hrest0 : 0 ∉ (fgets 32 stdin).2 := fun hx => h0 (fgets32_rest_mem stdin hx)
  have hpr0 : 0 ∉ (fgets 32 (fgets 32 stdin).2).1 :=
    fun hx => hrest0 (fgets32_read_mem _ hx)
  have hnrlen : (fgets 32 stdin).1.length ≤ 31 := fgets32_length stdin
  have hprlen : (fgets 32 (fgets 32 stdin).2).1.length ≤ 31 := fgets32_length _
  have hstruct := fgets32_nl_structure (fgets 32 stdin).2
  refine ⟨?_, ?_, ?_, ?_⟩
  · rw [auth_uname_def, auth_nameRead_def]
    exact uname_closed _ hnr0
  · rw [auth_nameBuf_def, auth_uname_def, uname_closed _ hnr0]
    exact write_cstr_replicate _ hnrlen
  · rw [auth_pword_def, auth_passRead_def]
    exact pword_closed _ hpr0 hprlen hstruct
  · rw [auth_passBuf_def, auth_pword_def, pword_closed _ hpr0 hprlen hstruct]
    exact strip_write_closed _ hpr0 hprlen hstruct

/-! Theorems settling the claims. -/

/-- C1, counterexample: the claim says the success message emits an
accepted username containing formatting directives literally and
unchanged.  In the run with username `admin%s%s` (granted, since
`admin` is a stored prefix) the username reaches `printf` as the format
string and the rendering is undefined (`none`), not the literal text. -/
theorem c1_format_directive_not_literal :
    (authenticate_admin (strBytes "admin%s%s\nx\n")).ok = true ∧
    37 ∈ (authenticate_admin (strBytes "admin%s%s\nx\n")).uname ∧
    auth_output (strBytes "admin%s%s\nx\n") = none := by decide

/-- C1, amended: the success path passes the verified username to
`printf` as the format string; only a granted username free of `%`
bytes is emitted literally and unchanged. -/
theorem c1_plain_username_literal (stdin : List Nat)
    (hok : (authenticate_admin stdin).ok = true)
    (hnp : 37 ∉ (authenticate_admin stdin).uname) :
    auth_output stdin =
      some (success_pre ++ (authenticate_admin stdin).uname ++ success_post) := by
  have hv : verify_user_password_with bcrypt_checkpw (authenticate_admin stdin).uname
      (authenticate_admin stdin).pword = true := by
    rw [← auth_ok_split stdin]
    exact hok
  simp only [auth_output, gate_output_with, hv, if_true]
  rw [printfRender_no_pct _ hnp]
  rfl

/-- C1, witness for the amended theorem: the granted run for
`admin` / `aaaaaaaa` has a `%`-free username and prints it literally
between the constant banners. -/
theorem c1_witness :
    auth_output (strBytes "admin\naaaaaaaa\n") =
      some (success_pre ++ (authenticate_admin (strBytes "admin\naaaaaaaa\n")).uname ++
        success_post) :=
  c1_plain_username_literal (strBytes "admin\naaaaaaaa\n") (by decide) (by decide)

/-- C2, counterexample: username `adminX` is not in the store (neither
as typed nor as read with its trailing newline), yet the outcome is
granted and `admin_panel` runs once — the `strncmp` prefix match plus
the stub `bcrypt_checkpw` admit it. -/
theorem c2_unknown_user_granted :
    (database.map User.username).contains (strBytes "adminX") = false ∧
    (database.map User.username).contains
      (authenticate_admin (strBytes "adminX\nx\n")).uname = false ∧
    admin_panel_invocations (strBytes "adminX\nx\n") = 1 := by decide

/-- C2, amended: the outcome is denied and `admin_panel` is never
invoked whenever no stored username is a byte-prefix of the username
string handed to verification (usernames extending a stored one are,
however, granted). -/
theorem c2_denied_without_prefix_match (stdin : List Nat)
    (h : ∀ e ∈ database,
      e.username ≠ (authenticate_admin stdin).uname.take e.username.length) :
    (authenticate_admin stdin).ok = false ∧ admin_panel_invocations stdin = 0 := by
  have hnone : findUser (authenticate_admin stdin).uname = none := by
    apply List.find?_eq_none.mpr
    intro e he hm
    simp only [userMatch, strncmp_eq] at hm
    rw [List.take_length] at hm
    exact h e he (by simpa using hm)
  have hok : (authenticate_admin stdin).ok = false := by
    rw [auth_ok_split]
    exact verify_with_find_none _ _ _ hnone
  refine ⟨hok, ?_⟩
  simp [admin_panel_invocations, hok]

/-- C2, witness for the amended theorem: username `zzz` extends no
stored entry, the run is denied and the panel count is zero. -/
theorem c2_witness :
    (authenticate_admin (strBytes "zzz\nx\n")).ok = false ∧
    admin_panel_invocations (strBytes "zzz\nx\n") = 0 :=
  c2_denied_without_prefix_match (strBytes "zzz\nx\n") (by decide)

/-- C3: the verdict of `verify_user_password` does not depend on the
password's content — any two passwords of valid nonzero length below
the maximum give the same result for the same username, because the
stub `bcrypt_checkpw` returns 0 unconditionally. -/
theorem c3_password_content_irrelevant (u p1 p2 : List Nat)
    (hu0 : u.length ≠ 0) (hu : u.length < 32)
    (hp10 : p1.length ≠ 0) (hp1 : p1.length < 32)
    (hp20 : p2.length ≠ 0) (hp2 : p2.length < 32) :
    verify_user_password u p1 = verify_user_password u p2 := by
  have hg1 : ¬(u.length = 0 ∨ 32 ≤ u.length ∨ p1.length = 0 ∨ 32 ≤ p1.length) := by omega
  have hg2 : ¬(u.length = 0 ∨ 32 ≤ u.length ∨ p2.length = 0 ∨ 32 ≤ p2.length) := by omega
  simp only [verify_user_password]
  cases hf : findUser u with
  | none => rw [verify_with_find_none _ _ _ hf, verify_with_find_none _ _ _ hf]
  | some e =>
    rw [verify_with_find_some _ _ _ e hg1 hf, verify_with_find_some _ _ _ e hg2 hf]
    rfl

/-- C3, witness: for username `admin`, passwords `a` and `bb` yield the
same verdict. -/
theorem c3_witness :
    verify_user_password (strBytes "admin") (strBytes "a") =
      verify_user_password (strBytes "admin") (strBytes "bb") :=
  c3_password_content_irrelevant _ _ _ (by decide) (by decide) (by decide) (by decide)
    (by decide) (by decide)

/-- C4: evaluation at the failing input of the prefix-match bug — the
lookup is not exact full-length equality: candidate `adminX` differs
from every stored username yet matches the `admin` entry (while a
proper prefix such as `adm` does not match). -/
theorem c4_lookup_prefix_bug :
    findUser (strBytes "adminX") =
      some { username := strBytes "admin", hashed_password := strBytes "aaaaaaaa" } ∧
    strBytes "adminX" ≠ strBytes "admin" ∧
    findUser (strBytes "adm") = none := by decide

/-- C5, counterexample: a 40-byte username line is not rejected; it is
silently truncated to the first 31 bytes and the credential store is
still scanned (one lookup). -/
theorem c5_overlong_truncated_and_looked_up :
    (authenticate_admin (List.replicate 40 97 ++ 10 :: strBytes "x\n")).nameRead =
      List.replicate 31 97 ∧
    (authenticate_admin (List.replicate 40 97 ++ 10 :: strBytes "x\n")).uname =
      List.replicate 31 97 ∧
    (authenticate_admin (List.replicate 40 97 ++ 10 :: strBytes "x\n")).lookups = 1 := by decide

/-- C5, amended: for any username line of at least 31 bytes (no newline
or zero bytes in it), the read silently truncates it to its first 31
bytes, there is no rejection, and the store is still scanned once
whenever the password read is nonempty. -/
theorem c5_truncation (l rest : List Nat)
    (hb : ∀ b ∈ l, b ≠ 10 ∧ b ≠ 0) (hlong : 31 ≤ l.length) :
    (authenticate_admin (l ++ 10 :: rest)).uname = l.take 31 ∧
    ((authenticate_admin (l ++ 10 :: rest)).pword ≠ [] →
      (authenticate_admin (l ++ 10 :: rest)).lookups = 1) := by
  have htake : (l ++ 10 :: rest).take 31 = l.take 31 :=
    List.take_append_of_le_length hlong
  have hfg : fgets 32 (l ++ 10 :: rest) =
      ((l ++ 10 :: rest).take 31, (l ++ 10 :: rest).drop 31) := by
    apply fgetsAux_no_nl
    · intro c hc
      rw [htake] at hc
      exact (hb c (List.take_subset 31 l hc)).1
    · simp only [List.length_append, List.length_cons]
      omega
  have huname : (authenticate_admin (l ++ 10 :: rest)).uname = l.take 31 := by
    simp only [authenticate_admin]
    rw [auth_uname_def, hfg]
    simp only [htake]
    refine uname_closed _ ?_
    intro hx
    exact (hb 0 (List.take_subset 31 l hx)).2 rfl
  have hul : (authenticate_admin (l ++ 10 :: rest)).uname.length = 31 := by
    rw [huname, List.length_take]
    omega
  refine ⟨huname, fun hpw => ?_⟩
  have hpl : (authenticate_admin (l ++ 10 :: rest)).pword.length ≤ 31 := by
    simp only [authenticate_admin]
    rw [auth_pword_def]
    exact strip_write_cstr_len _ (fgets32_length _)
  have hpne : (authenticate_admin (l ++ 10 :: rest)).pword.length ≠ 0 := by
    intro hz
    exact hpw (List.eq_nil_of_length_eq_zero hz)
  simp only [authenticate_admin] at hul hpl hpne ⊢
  rw [auth_lookups_def]
  apply trace_valid_lookups
  omega

/-- C5, witness for the amended theorem: a 35-byte line of `b` bytes is
truncated to 31 bytes and one lookup happens. -/
theorem c5_witness :
    (authenticate_admin (List.replicate 35 98 ++ 10 :: strBytes "x\n")).uname =
      List.replicate 31 98 ∧
    (authenticate_admin (List.replicate 35 98 ++ 10 :: strBytes "x\n")).lookups = 1 := by
  have h := c5_truncation (List.replicate 35 98) (strBytes "x\n") (by decide) (by decide)
  refine ⟨?_, h.2 (by decide)⟩
  rw [h.1]
  decide

/-- C6, counterexample: after the granted terminal outcome for
`admin` / `aaaaaaaa`, neither sensitive buffer is all zero — the
buffers are zeroized before the reads, never wiped on return. -/
theorem c6_buffers_not_zero_after_return :
    (authenticate_admin (strBytes "admin\naaaaaaaa\n")).ok = true ∧
    (authenticate_admin (strBytes "admin\naaaaaaaa\n")).nameBuf ≠ List.replicate 32 0 ∧
    (authenticate_admin (strBytes "admin\naaaaaaaa\n")).passBuf ≠ List.replicate 32 0 := by
  decide

/-- C6, amended: at every terminal outcome the buffers still hold the
entered credentials, followed only by the zero padding left from the
initial zeroization — they are not wiped before the gate returns. -/
theorem c6_buffers_retain (stdin : List Nat) (h0 : 0 ∉ stdin) :
    (authenticate_admin stdin).nameBuf =
      (authenticate_admin stdin).uname ++
        List.replicate (32 - (authenticate_admin stdin).uname.length) 0 ∧
    (authenticate_admin stdin).passBuf =
      (authenticate_admin stdin).pword ++
        List.replicate (32 - (authenticate_admin stdin).pword.length) 0 := by
  simp only [authenticate_admin]
  exact ⟨(run_retains bcrypt_checkpw stdin h0).2.1,
    (run_retains bcrypt_checkpw stdin h0).2.2.2⟩

/-- C6, witness for the amended theorem: the `admin` / `aaaaaaaa` run
leaves both credentials in their buffers. -/
theorem c6_witness :
    (authenticate_admin (strBytes "admin\naaaaaaaa\n")).nameBuf =
      (authenticate_admin (strBytes "admin\naaaaaaaa\n")).uname ++
        List.replicate
          (32 - (authenticate_admin (strBytes "admin\naaaaaaaa\n")).uname.length) 0 ∧
    (authenticate_admin (strBytes "admin\naaaaaaaa\n")).passBuf =
      (authenticate_admin (strBytes "admin\naaaaaaaa\n")).pword ++
        List.replicate
          (32 - (authenticate_admin (strBytes "admin\naaaaaaaa\n")).pword.length) 0 :=
  c6_buffers_retain (strBytes "admin\naaaaaaaa\n") (by decide)

/-- C7, counterexample: a 31-byte username is not rejected as
`CredentialInvalid` — the source's check rejects lengths `≥ 32`, not
`≥ 31`; this 31-byte username is looked up and even granted. -/
theorem c7_length31_accepted :
    (strBytes "admin" ++ List.replicate 26 97).length = 31 ∧
    (verify_user_password_trace (strBytes "admin" ++ List.replicate 26 97)
      (strBytes "x")).lookups = 1 ∧
    (verify_user_password_trace (strBytes "admin" ++ List.replicate 26 97)
      (strBytes "x")).ok = true := by decide

/-- C7, amended: validation rejects exactly when a credential's length
is 0 or at least 32 (the buffer capacity, not capacity minus one), and
when it rejects it does so before any store lookup, with a false
verdict. -/
theorem c7_validate_boundary (u p : List Nat) :
    ((verify_user_password_trace u p).lookups = 0 ↔
      (u.length = 0 ∨ 32 ≤ u.length ∨ p.length = 0 ∨ 32 ≤ p.length)) ∧
    ((verify_user_password_trace u p).lookups = 0 →
      (verify_user_password_trace u p).ok = false) := by
  by_cases h : u.length = 0 ∨ 32 ≤ u.length ∨ p.length = 0 ∨ 32 ≤ p.length
  · have he := trace_invalid bcrypt_checkpw u p h
    simp only [verify_user_password_trace]
    rw [he]
    exact ⟨⟨fun _ => h, fun _ => rfl⟩, fun _ => rfl⟩
  · have hl := trace_valid_lookups bcrypt_checkpw u p h
    simp only [verify_user_password_trace]
    constructor
    · constructor
      · intro h0
        rw [hl] at h0
        exact absurd h0 (by decide)
      · intro hc
        exact absurd hc h
    · intro h0
      rw [hl] at h0
      exact absurd h0 (by decide)

/-- C7, witness: the empty username with password `a` is rejected
before any lookup and denied. -/
theorem c7_witness :
    (verify_user_password_trace [] [97]).lookups = 0 ∧
    (verify_user_password_trace [] [97]).ok = false :=
  ⟨(c7_validate_boundary [] [97]).1.mpr (Or.inl rfl),
    (c7_validate_boundary [] [97]).2 ((c7_validate_boundary [] [97]).1.mpr (Or.inl rfl))⟩

/-- C8, counterexample: the username line `bob` is stored with its
trailing newline — the buffer content ends with a newline byte when
validation and lookup run (the source's strip line is commented out). -/
theorem c8_username_keeps_newline :
    (authenticate_admin (strBytes "bob\nx\n")).uname = [98, 111, 98, 10] ∧
    (authenticate_admin (strBytes "bob\nx\n")).uname.getLast? = some 10 ∧
    (authenticate_admin (strBytes "bob\nx\n")).pword = [120] := by decide

/-- C8, amended: only the password read strips the trailing newline;
the username is handed to validation verbatim as read, including any
trailing newline. -/
theorem c8_newline_strip_password_only (stdin : List Nat) (h0 : 0 ∉ stdin) :
    (authenticate_admin stdin).uname = (authenticate_admin stdin).nameRead ∧
    10 ∉ (authenticate_admin stdin).pword := by
  simp only [authenticate_admin]
  refine ⟨(run_retains bcrypt_checkpw stdin h0).1, ?_⟩
  rw [(run_retains bcrypt_checkpw stdin h0).2.2.1]
  intro hx
  have hp := mem_takeWhile_pred _ _ hx
  simp at hp

/-- C8, witness for the amended theorem: in the `bob` run the username
keeps its newline byte and the password has none. -/
theorem c8_witness :
    (authenticate_admin (strBytes "bob\nx\n")).uname =
      (authenticate_admin (strBytes "bob\nx\n")).nameRead ∧
    10 ∉ (authenticate_admin (strBytes "bob\nx\n")).pword :=
  c8_newline_strip_password_only (strBytes "bob\nx\n") (by decide)

/-- C9: a denied run caused by an unknown username and a denied run
caused by a failing password check for a stored username emit the same
constant-shape mismatch line (a fixed template around the entered
username), revealing nothing about whether the username existed.  The
password checking capability is the pluggable parameter; the source's
stub never fails, so a non-constant instance exhibits the second run. -/
theorem c9_denied_messages_constant (cp : List Nat → List Nat → Int)
    (u1 p1 u2 p2 : List Nat)
    (_hu1 : u1.length ≠ 0) (_hu1m : u1.length < 32)
    (_hp1 : p1.length ≠ 0) (_hp1m : p1.length < 32)
    (hu2 : u2.length ≠ 0) (hu2m : u2.length < 32)
    (hp2 : p2.length ≠ 0) (hp2m : p2.length < 32)
    (habsent : findUser u1 = none)
    (hfail : ∃ e, findUser u2 = some e ∧ cp p2 e.hashed_password ≠ 0) :
    gate_output_with cp u1 p1 = some (mismatch_msg u1) ∧
    gate_output_with cp u2 p2 = some (mismatch_msg u2) := by
  constructor
  · have hv := verify_with_find_none cp u1 p1 habsent
    simp [gate_output_with, hv]
  · obtain ⟨e, he, hne⟩ := hfail
    have hg : ¬(u2.length = 0 ∨ 32 ≤ u2.length ∨ p2.length = 0 ∨ 32 ≤ p2.length) := by omega
    have hv : verify_user_password_with cp u2 p2 = false := by
      rw [verify_with_find_some cp u2 p2 e hg he]
      simpa using hne
    simp [gate_output_with, hv]

/-- C9, witness: with an equality-based password check, the unknown
user `zzz` and the stored user `admin` with wrong password `bbb` both
produce the same mismatch template. -/
theorem c9_witness :
    gate_output_with eq_checkpw (strBytes "zzz") (strBytes "x") =
      some (mismatch_msg (strBytes "zzz")) ∧
    gate_output_with eq_checkpw (strBytes "admin") (strBytes "bbb") =
      some (mismatch_msg (strBytes "admin")) :=
  c9_denied_messages_constant eq_checkpw (strBytes "zzz") (strBytes "x")
    (strBytes "admin") (strBytes "bbb")
    (by decide) (by decide) (by decide) (by decide)
    (by decide) (by decide) (by decide) (by decide)
    (by decide)
    ⟨{ username := strBytes "admin", hashed_password := strBytes "aaaaaaaa" },
      by decide, by decide⟩

/-- C10: for the exact stored pair `admin` / `aaaaaaaa` entered
verbatim, the outcome is granted and `admin_panel` is invoked exactly
once in the attempt. -/
theorem c10_exact_pair_granted_once :
    (authenticate_admin (strBytes "admin\naaaaaaaa\n")).ok = true ∧
    admin_panel_invocations (strBytes "admin\naaaaaaaa\n") = 1 := by decide

end FmtAuth
